import Mathlib

/-!
Verification development for the wikipedia_sqlite core (`wikipedia` Go package).
The Go functions `ProcessArticles`, `LoadIndex`, `GetArticle`, `SearchTitles`,
`Open`/`createTables` are shallowly embedded as executable Lean functions.
Go byte strings are modelled as `List Nat` (bytes below 256), Go `int`/`int64`
as `Int`, SQL tables as Lean lists in insertion order.
-/

namespace WikipediaSqlite

/-! ## Content truncation in ProcessArticles -/

/-- Maximum stored article body size in bytes: the `10*1024*1024` constant in
`ProcessArticles` ("10MB max per article"). -/
def maxContentBytes : Nat := 10 * 1024 * 1024

/-- The content truncation step of `ProcessArticles`:
`if len(content) > 10*1024*1024 { content = content[:10*1024*1024] }`.
Go strings are byte slices and the slice operates on raw bytes, so this is a
byte-level prefix cut with no character-boundary adjustment. -/
def truncateContent (content : List Nat) : List Nat :=
  if content.length > maxContentBytes then content.take maxContentBytes else content

/-- A UTF-8 continuation byte, `0x80 ≤ b ≤ 0xBF`. -/
def isCont (b : Nat) : Bool := 0x80 ≤ b && b ≤ 0xBF

/-- The byte ranges a UTF-8 lead byte requires of its continuation bytes,
per RFC 3629 (shortest forms only, no surrogates, code points at most
U+10FFFF); `none` for an invalid lead byte. -/
def utf8Start (b : Nat) : Option (List (Nat × Nat)) :=
  if b ≤ 0x7F then some []
  else if 0xC2 ≤ b && b ≤ 0xDF then some [(0x80, 0xBF)]
  else if b = 0xE0 then some [(0xA0, 0xBF), (0x80, 0xBF)]
  else if (0xE1 ≤ b && b ≤ 0xEC) || b = 0xEE || b = 0xEF then
    some [(0x80, 0xBF), (0x80, 0xBF)]
  else if b = 0xED then some [(0x80, 0x9F), (0x80, 0xBF)]
  else if b = 0xF0 then some [(0x90, 0xBF), (0x80, 0xBF), (0x80, 0xBF)]
  else if 0xF1 ≤ b && b ≤ 0xF3 then some [(0x80, 0xBF), (0x80, 0xBF), (0x80, 0xBF)]
  else if b = 0xF4 then some [(0x80, 0x8F), (0x80, 0xBF), (0x80, 0xBF)]
  else Option.none

/-- UTF-8 validation as a byte-at-a-time machine: the first argument lists
the byte ranges still expected for the current code point. -/
def isUtf8Aux : List (Nat × Nat) → List Nat → Bool
  | [], [] => true
  | _ :: _, [] => false
  | [], b :: rest =>
    match utf8Start b with
    | some exp => isUtf8Aux exp rest
    | Option.none => false
  | (lo, hi) :: exp, b :: rest => lo ≤ b && b ≤ hi && isUtf8Aux exp rest

/-- UTF-8 validity of a byte sequence per RFC 3629. -/
def isUtf8 (l : List Nat) : Bool := isUtf8Aux [] l

/-- A valid UTF-8 body of 10 MiB + 1 bytes whose final code point (U+00E9,
encoded `C3 A9`) straddles the 10 MiB cut. -/
def c1BadContent : List Nat := List.replicate (maxContentBytes - 1) 0x61 ++ [0xC3, 0xA9]

/-! ## LoadIndex: scanner, line parsing, insert-or-ignore -/

/-- The scanner buffer bound in `LoadIndex`: `scanner.Buffer(buf, 16*1024)`.
`bufio.Scanner` fails with `ErrTooLong` as soon as a token (the line without
its terminator) cannot fit in a buffer of this size, which happens exactly
when the line content reaches this many bytes. -/
def maxScanTokenSize : Nat := 16 * 1024

/-- Base-10 digit accumulation for `strconv.ParseInt`: all characters must be
decimal digits and at least one digit must be present. -/
def parseNatDigits (cs : List Char) : Option Nat :=
  if cs.isEmpty then Option.none
  else cs.foldl
    (fun acc c => acc.bind fun n =>
      if c.isDigit then some (n * 10 + (c.toNat - 48)) else Option.none)
    (some 0)

/-- `strconv.ParseInt(s, 10, 64)`: optional sign, decimal digits, signed
64-bit range check (out-of-range input returns an error in Go, hence `none`
here). -/
def parseInt64 (cs : List Char) : Option Int :=
  match cs with
  | '+' :: rest =>
      (parseNatDigits rest).bind fun n =>
        if n ≤ 2 ^ 63 - 1 then some (n : Int) else Option.none
  | '-' :: rest =>
      (parseNatDigits rest).bind fun n =>
        if n ≤ 2 ^ 63 then some (-(n : Int)) else Option.none
  | _ =>
      (parseNatDigits cs).bind fun n =>
        if n ≤ 2 ^ 63 - 1 then some (n : Int) else Option.none

/-- Split a character list at the first occurrence of `c`, if any. -/
def splitFirst (c : Char) : List Char → Option (List Char × List Char)
  | [] => Option.none
  | x :: xs =>
    if x = c then some ([], xs)
    else (splitFirst c xs).map fun p => (x :: p.1, p.2)

/-- One iteration of the `LoadIndex` scan loop body:
`strings.SplitN(line, ":", 3)` followed by `ParseInt` on the first two
fields. `none` means the line is skipped (`continue` in the Go loop): fewer
than three parts, or a numeric field that does not parse. -/
def parseIndexLine (line : List Char) : Option (Int × Int) :=
  match splitFirst ':' line with
  | Option.none => Option.none
  | some (p0, rest) =>
    match splitFirst ':' rest with
    | Option.none => Option.none
    | some (p1, _) =>
      match parseInt64 p0, parseInt64 p1 with
      | some seek, some id => some (seek, id)
      | _, _ => Option.none

/-- `INSERT OR IGNORE INTO index_entries (seek, article_id)`: the table has
`PRIMARY KEY (seek, article_id)`, so a duplicate pair is silently dropped and
a new pair is appended. -/
def insertOrIgnore (t : List (Int × Int)) (e : Int × Int) : List (Int × Int) :=
  if e ∈ t then t else t ++ [e]

/-- The `LoadIndex` scan loop. State: `committed` is the table content made
durable by past `tx.Commit` calls, `current` is the table as seen inside the
open transaction, `i` is the processed-entry counter. Every 10000 entries the
transaction commits; on scanner failure (a line whose content reaches the
16 KiB buffer bound) the function returns the committed table and an error
flag (`true`), the open transaction never being committed; reaching the
`limit` breaks out and commits the tail, as does end of input. -/
def loadIndexLoop (committed current : List (Int × Int)) (i : Nat) (limit : Int) :
    List (List Char) → List (Int × Int) × Bool
  | [] => (current, false)
  | line :: rest =>
    if maxScanTokenSize ≤ line.length then (committed, true)
    else
      match parseIndexLine line with
      | Option.none => loadIndexLoop committed current i limit rest
      | some e =>
        let cur2 := insertOrIgnore current e
        let i2 := i + 1
        let com2 := if i2 % 10000 = 0 then cur2 else committed
        if 0 < limit ∧ limit ≤ (i2 : Int) then (cur2, false)
        else loadIndexLoop com2 cur2 i2 limit rest

/-- `LoadIndex(limit)` over an already-decompressed line stream, acting on an
initial `index_entries` table state. Returns the resulting durable table and
whether the scanner reported an error (in which case `LoadIndex` returns a
non-nil error). -/
def loadIndex (t : List (Int × Int)) (lines : List (List Char)) (limit : Int) :
    List (Int × Int) × Bool :=
  loadIndexLoop t t 0 limit lines

/-- The sequence of `(seek, article_id)` pairs `LoadIndex` attempts to insert,
in order: scanning stops at a too-long line or once `limit` entries have been
taken. -/
def indexAttempts (i : Nat) (limit : Int) : List (List Char) → List (Int × Int)
  | [] => []
  | line :: rest =>
    if maxScanTokenSize ≤ line.length then []
    else
      match parseIndexLine line with
      | Option.none => indexAttempts i limit rest
      | some e =>
        e :: (if 0 < limit ∧ limit ≤ ((i + 1 : Nat) : Int) then []
              else indexAttempts (i + 1) limit rest)

/-- A line of exactly 16 KiB, at the scanner buffer bound. -/
def c3LongLine : List Char := List.replicate maxScanTokenSize 'a'

/-- A short well-formed index line. -/
def c3GoodLine : List Char := "100:5:Title".toList

/-! ## ProcessArticles -/

/-- A row of the `articles` table (the `created_at` column, defaulted by the
store, is not modelled). `content` is the raw byte string. -/
structure Article where
  id : Int
  title : String
  ns : Int
  content : List Nat
  redirect : String
deriving DecidableEq

/-- A decoded `<page>` record: title, namespace, id, the titles of the
`<redirect>` elements in document order, and the revision text bytes. -/
structure Page where
  title : String
  ns : Int
  id : Int
  redirect : List String
  text : List Nat
deriving DecidableEq

/-- The article row `ProcessArticles` builds from a kept page: `redirect` is
the first redirect target title, or the empty string when the page has none
(`if len(page.Redirect) > 0 { redirect = page.Redirect[0].Title }`), and the
content is truncated to 10 MiB. -/
def pageToArticle (p : Page) : Article :=
  { id := p.id, title := p.title, ns := p.ns,
    content := truncateContent p.text,
    redirect := match p.redirect with | [] => "" | t :: _ => t }

/-- `INSERT OR REPLACE INTO articles`: `id` is the primary key, so a row with
the same id is replaced in place and a new id is appended. -/
def upsertArticle (tbl : List Article) (a : Article) : List Article :=
  if tbl.any fun b => b.id = a.id then tbl.map fun b => if b.id = a.id then a else b
  else tbl ++ [a]

/-- The `ProcessArticles` decode loop: pages with `NS ≠ 0` are skipped, pages
whose id is not in the materialized index-id set are skipped, kept pages are
upserted after redirect extraction and content truncation; the loop stops
after `limit` kept pages when `limit > 0`. -/
def processArticlesLoop (indexIds : List Int) (tbl : List Article) (processed : Nat)
    (limit : Int) : List Page → List Article
  | [] => tbl
  | p :: rest =>
    if p.ns ≠ 0 then processArticlesLoop indexIds tbl processed limit rest
    else if p.id ∉ indexIds then processArticlesLoop indexIds tbl processed limit rest
    else
      let tbl2 := upsertArticle tbl (pageToArticle p)
      if 0 < limit ∧ limit ≤ ((processed + 1 : Nat) : Int) then tbl2
      else processArticlesLoop indexIds tbl2 (processed + 1) limit rest

/-- `ProcessArticles(limit)` over an already-decoded page stream, starting
from an empty `articles` table. `indexIds` is the set of distinct
`article_id` values materialized from `index_entries`. -/
def processArticles (indexIds : List Int) (pages : List Page) (limit : Int) :
    List Article :=
  processArticlesLoop indexIds [] 0 limit pages

/-! ## GetArticle -/

/-- ASCII lower-casing of one character: the folding SQLite applies in its
built-in `LOWER`, and the restriction of Go `strings.ToLower` to ASCII. -/
def asciiLowerChar (c : Char) : Char :=
  if 'A' ≤ c ∧ c ≤ 'Z' then Char.ofNat (c.toNat + 32) else c

/-- ASCII upper-casing of one character. -/
def asciiUpperChar (c : Char) : Char :=
  if 'a' ≤ c ∧ c ≤ 'z' then Char.ofNat (c.toNat - 32) else c

/-- An ASCII letter. -/
def isAsciiLetter (c : Char) : Bool :=
  ('a' ≤ c && c ≤ 'z') || ('A' ≤ c && c ≤ 'Z')

/-- ASCII lower-casing of a string (SQLite `LOWER(?)`; agrees with Go
`strings.ToLower` on ASCII input). -/
def asciiLower (s : String) : String :=
  String.mk (s.toList.map asciiLowerChar)

/-- Word-walking core of the title caser: the Boolean argument records
whether the previous character was a letter (i.e. we are inside a word).
The first letter of each word is upper-cased, subsequent letters are
lower-cased, non-letters pass through and end the word. -/
def titleCaseChars : Bool → List Char → List Char
  | _, [] => []
  | inWord, c :: rest =>
    if isAsciiLetter c then
      (if inWord then asciiLowerChar c else asciiUpperChar c) :: titleCaseChars true rest
    else c :: titleCaseChars false rest

/-- `cases.Title(language.AmericanEnglish).String`, restricted to ASCII:
title-cases the first letter of every word and lower-cases the rest. -/
def goTitleCase (s : String) : String :=
  String.mk (titleCaseChars false s.toList)

/-- The first `GetArticle` query, `SELECT … FROM articles WHERE title = ?
LIMIT 1`: the first row whose title equals the argument exactly. -/
def findExact (tbl : List Article) (t : String) : Option Article :=
  tbl.find? fun a => a.title == t

/-- The second `GetArticle` query, `SELECT … FROM articles WHERE
LOWER(title) = LOWER(?) LIMIT 1`: the first row matching case-insensitively
(SQLite `LOWER` folds ASCII only). -/
def findCI (tbl : List Article) (t : String) : Option Article :=
  tbl.find? fun a => asciiLower a.title == asciiLower t

/-- `GetArticle(title)`: exact lookup first; on a miss, lower-case the input,
apply the American-English title caser, and retry case-insensitively; `none`
models the "article not found" error. -/
def getArticle (tbl : List Article) (title : String) : Option Article :=
  match findExact tbl title with
  | some a => some a
  | Option.none => findCI tbl (goTitleCase (asciiLower title))

/-! ## SearchTitles -/

/-- A row of the `articles_fts` virtual table: rowid (the article id under
the generation-5 `content_rowid=id` mapping, `docid` under generation 4),
indexed title and content. -/
structure FtsRow where
  rowid : Int
  title : String
  content : String
deriving DecidableEq

/-- The store state a search reads: the `articles` base table and the
`articles_fts` view kept in step by the triggers. -/
structure SearchDb where
  articles : List Article
  ftsRows : List FtsRow

/-- Does `needle` occur at the head of `hay`? -/
def startsWithChars : List Char → List Char → Bool
  | [], _ => true
  | _ :: _, [] => false
  | a :: as, b :: bs => a == b && startsWithChars as bs

/-- Does `needle` occur contiguously anywhere in `hay`? -/
def containsSub (needle : List Char) : List Char → Bool
  | [] => needle.isEmpty
  | b :: rest => startsWithChars needle (b :: rest) || containsSub needle rest

/-- SQLite `t LIKE '%' || q || '%'` for a pattern `q` free of the LIKE
metacharacters `%` and `_`: case-insensitive (ASCII) substring match. -/
def likeMatch (q : String) (t : String) : Bool :=
  containsSub (q.toList.map asciiLowerChar) (t.toList.map asciiLowerChar)

/-- Walker for `SELECT DISTINCT` on a single string column: `seen` holds the
values already emitted; later duplicates are dropped. -/
def dedupFirstAux (seen : List String) : List String → List String
  | [] => []
  | x :: xs =>
    if x ∈ seen then dedupFirstAux seen xs
    else x :: dedupFirstAux (x :: seen) xs

/-- `SELECT DISTINCT`: drop every later duplicate, keeping first occurrences. -/
def dedupFirst (l : List String) : List String := dedupFirstAux [] l

/-- Walker collapsing `articles_fts` rows to one row per title, keeping the
first occurrence of each title. -/
def dedupByTitleAux (seen : List String) : List FtsRow → List FtsRow
  | [] => []
  | r :: rs =>
    if r.title ∈ seen then dedupByTitleAux seen rs
    else r :: dedupByTitleAux (r.title :: seen) rs

/-- Collapse `articles_fts` rows to one per title, keeping the first
occurrence of each title. -/
def dedupByTitle (l : List FtsRow) : List FtsRow := dedupByTitleAux [] l

/-- The limit normalization at the top of `SearchTitles`:
`if limit <= 0 { limit = 20 }`. -/
def normLimit (n : Int) : Int := if n ≤ 0 then 20 else n

/-- The LIKE fallback query of `SearchTitles`: `SELECT DISTINCT title FROM
articles WHERE title LIKE ? ORDER BY title LIMIT ?` with pattern
`"%" + query + "%"`: matching titles, duplicates collapsed, sorted by the
default BINARY collation (modelled by the character order on strings), first
`limit` rows. -/
def likeSearch (articles : List Article) (q : String) (lim : Int) : List String :=
  ((dedupFirst ((articles.filter fun a => likeMatch q a.title).map fun a => a.title)).insertionSort
      (fun s t => s ≤ t)).take lim.toNat

/-- The FTS query of `SearchTitles`: `SELECT DISTINCT title FROM articles_fts
WHERE articles_fts MATCH ? ORDER BY rank LIMIT ?`. Under generation 5, `rank`
is the built-in relevance column, so the matching rows are ordered by rank,
collapsed to distinct titles and limited; `mtch` and `rank` abstract the
engine's MATCH predicate and rank value for the bound query string. Under
generation 4 no `rank` column exists, so preparing the statement fails
(verified against SQLite: `no such column: rank`) and `db.Query` returns the
error. -/
def searchFts (version : String) (mtch : FtsRow → Bool) (rank : FtsRow → Int)
    (rows : List FtsRow) (lim : Int) : Except String (List String) :=
  if version = "fts5" then
    Except.ok (((dedupByTitle ((rows.filter mtch).insertionSort
        fun a b => rank a ≤ rank b)).map fun r => r.title).take lim.toNat)
  else Except.error "no such column: rank"

/-- The query-string sanitization in `SearchTitles`: embedded double quotes
are doubled, embedded single quotes are doubled. -/
def escapeFtsChars : List Char → List Char
  | [] => []
  | c :: rest =>
    if c = '"' then '"' :: '"' :: escapeFtsChars rest
    else if c = '\'' then '\'' :: '\'' :: escapeFtsChars rest
    else c :: escapeFtsChars rest

/-- `strings.ReplaceAll(query, quote, quotequote)` twice, as in
`SearchTitles`. -/
def escapeFts (q : String) : String := String.mk (escapeFtsChars q.toList)

/-- `SearchTitles(query, limit)`: normalize the limit; in an FTS mode, build
the prefix query (escaped input plus `*`) and run the FTS select — on engine
error demote `ftsVersion` to `"none"` and fall through to the LIKE query;
in mode `"none"`, run the LIKE query directly. Returns the result and the
`ftsVersion` field as left for subsequent calls. The engine's MATCH and rank
behaviour for a given query string are abstracted by `mtch` and `rank`. -/
def searchTitles (db : SearchDb) (mtch : String → FtsRow → Bool)
    (rank : String → FtsRow → Int) (ftsVersion : String) (query : String)
    (lim : Int) : Except String (List String) × String :=
  if ftsVersion = "fts5" ∨ ftsVersion = "fts4" then
    match searchFts ftsVersion (mtch (escapeFts query ++ "*"))
        (rank (escapeFts query ++ "*")) db.ftsRows (normLimit lim) with
    | Except.ok titles => (Except.ok titles, ftsVersion)
    | Except.error _ =>
      (Except.ok (likeSearch db.articles query (normLimit lim)), "none")
  else (Except.ok (likeSearch db.articles query (normLimit lim)), ftsVersion)

/-! ## Open and createTables -/

/-- The environment `Open` runs against: whether the connection and pragma
setup succeed, the stored DDL of a pre-existing `articles_fts` table (if
any), and whether the engine accepts the generation-5 / generation-4
`CREATE VIRTUAL TABLE` statements. -/
structure SqlEnv where
  openOk : Bool
  existingFtsSql : Option String
  fts5Ok : Bool
  fts4Ok : Bool

/-- The persistent fields of `Wiki` that `Open` touches. -/
structure WikiState where
  initialized : Bool
  dbOpen : Bool
  tablesCreated : Bool
  ftsVersion : String
deriving DecidableEq

/-- The FTS version `createTables` records: if `articles_fts` already exists
with non-empty DDL, classify by substring match on the lower-cased DDL;
otherwise probe generation 5, then generation 4, else `"none"`. -/
def detectFtsVersion (env : SqlEnv) : String :=
  match env.existingFtsSql with
  | some sql =>
    if sql ≠ "" then
      if containsSub "fts5".toList (sql.toList.map asciiLowerChar) then "fts5"
      else if containsSub "fts4".toList (sql.toList.map asciiLowerChar) then "fts4"
      else "none"
    else if env.fts5Ok then "fts5" else if env.fts4Ok then "fts4" else "none"
  | Option.none =>
    if env.fts5Ok then "fts5" else if env.fts4Ok then "fts4" else "none"

/-- `createTables`: create the base tables and indexes, detect or create the
FTS table (installing the matching triggers), record the FTS version. -/
def createTables (env : SqlEnv) (w : WikiState) : WikiState :=
  { w with tablesCreated := true, ftsVersion := detectFtsVersion env }

/-- `Open`: under the write lock, return immediately when already
initialized; otherwise open the connection, apply the pragmas, run
`createTables`, and set `initialized`. A connection or pragma failure
returns an error without setting `initialized`. -/
def openWiki (env : SqlEnv) (w : WikiState) : WikiState × Option String :=
  if w.initialized then (w, Option.none)
  else if ¬ env.openOk then ({ w with dbOpen := true }, some "failed to open database")
  else ({ createTables env { w with dbOpen := true } with initialized := true },
    Option.none)

/-! ## Concrete stores used by witnesses and counterexamples -/

/-- The stored "Anarchism" article of the spec's end-to-end scenarios. -/
def anarchismArticle : Article :=
  { id := 12, title := "Anarchism", ns := 0, content := [65], redirect := "" }

/-- A one-article search store. -/
def exampleDb : SearchDb :=
  { articles := [anarchismArticle],
    ftsRows := [{ rowid := 12, title := "Anarchism", content := "Anarchism" }] }

/-- The main-namespace page behind `anarchismArticle`. -/
def anarchismPage : Page :=
  { title := "Anarchism", ns := 0, id := 12, redirect := [], text := [65] }

/-- The namespace-1 talk page of the spec's scenario 3. -/
def talkPage : Page :=
  { title := "Talk:Anarchism", ns := 1, id := 13, redirect := [], text := [66] }

/-- An environment in which the connection opens and the engine supports
generation 5. -/
def c10Env : SqlEnv :=
  { openOk := true, existingFtsSql := Option.none, fts5Ok := true, fts4Ok := true }

/-- A freshly constructed `Wiki` before its first `Open`. -/
def c10Fresh : WikiState :=
  { initialized := false, dbOpen := false, tablesCreated := false, ftsVersion := "none" }

/-! ## Helper lemmas -/

theorem isUtf8_cons_ascii (l : List Nat) : isUtf8 (0x61 :: l) = isUtf8 l := rfl

theorem isUtf8_replicate_append (n : Nat) (l : List Nat) :
    isUtf8 (List.replicate n 0x61 ++ l) = isUtf8 l := by
  induction n with
  | zero => simp
  | succ k ih => simpa [List.replicate_succ, isUtf8_cons_ascii] using ih

/-! ## C1: content truncation -/

/-- C1 counterexample: the claim that the 10 MiB truncation never splits a
multi-byte UTF-8 sequence is false. `c1BadContent` is a valid UTF-8 body of
10 MiB + 1 bytes whose last code point (U+00E9, bytes `C3 A9`) straddles the
10 MiB mark; the byte cut in `ProcessArticles` keeps the lone lead byte
`C3`, so the stored content is not valid UTF-8. -/
theorem c1_truncate_not_utf8_safe :
    isUtf8 c1BadContent = true ∧
    c1BadContent.length = maxContentBytes + 1 ∧
    isUtf8 (truncateContent c1BadContent) = false := by
  have hlen : c1BadContent.length = maxContentBytes + 1 := by
    rw [c1BadContent, List.length_append, List.length_replicate]
    norm_num [maxContentBytes]
  refine ⟨?_, hlen, ?_⟩
  · rw [c1BadContent, isUtf8_replicate_append]
    decide
  · have h1 : maxContentBytes - (maxContentBytes - 1) = 1 := by
      norm_num [maxContentBytes]
    have htr : truncateContent c1BadContent
        = List.replicate (maxContentBytes - 1) 0x61 ++ [0xC3] := by
      rw [truncateContent, if_pos (by omega)]
      rw [c1BadContent, List.take_append_eq_append_take,
        List.take_of_length_le (by simp), List.length_replicate, h1]
      rfl
    rw [htr, isUtf8_replicate_append]
    decide

/-- C1 (amended): the content stored by `ProcessArticles` is the raw 10 MiB
byte prefix of the page text: never longer than 10 MiB, and content of at
most 10 MiB (in particular exactly 10 MiB) is stored unchanged. No UTF-8
boundary adjustment is performed and validity is not preserved, as
`c1_truncate_not_utf8_safe` shows. -/
theorem c1_truncation (content : List Nat) :
    truncateContent content = content.take maxContentBytes ∧
    (truncateContent content).length ≤ maxContentBytes ∧
    (content.length ≤ maxContentBytes → truncateContent content = content) := by
  have htake : truncateContent content = content.take maxContentBytes := by
    rw [truncateContent]
    by_cases h : content.length > maxContentBytes
    · rw [if_pos h]
    · rw [if_neg h, List.take_of_length_le (by omega)]
  refine ⟨htake, ?_, fun hle => ?_⟩
  · rw [htake, List.length_take]
    omega
  · rw [truncateContent, if_neg (by omega)]

/-- Witness for `c1_truncation`: content of exactly 10 MiB is stored
unchanged. -/
theorem c1_truncation_witness :
    truncateContent (List.replicate maxContentBytes 0x61)
      = List.replicate maxContentBytes 0x61 :=
  (c1_truncation (List.replicate maxContentBytes 0x61)).2.2 (by simp)

/-! ## LoadIndex loop lemmas -/

theorem loadIndexLoop_cons_too_long (c cur : List (Int × Int)) (i : Nat) (lim : Int)
    (line : List Char) (rest : List (List Char))
    (h : maxScanTokenSize ≤ line.length) :
    loadIndexLoop c cur i lim (line :: rest) = (c, true) := by
  simp only [loadIndexLoop]
  rw [if_pos h]

theorem loadIndexLoop_cons_skip (c cur : List (Int × Int)) (i : Nat) (lim : Int)
    (line : List Char) (rest : List (List Char))
    (h : line.length < maxScanTokenSize) (hp : parseIndexLine line = Option.none) :
    loadIndexLoop c cur i lim (line :: rest) = loadIndexLoop c cur i lim rest := by
  simp only [loadIndexLoop]
  rw [if_neg (by omega)]
  simp only [hp]

theorem loadIndexLoop_cons_entry (c cur : List (Int × Int)) (i : Nat) (lim : Int)
    (line : List Char) (rest : List (List Char)) (e : Int × Int)
    (h : line.length < maxScanTokenSize) (hp : parseIndexLine line = some e) :
    loadIndexLoop c cur i lim (line :: rest) =
      if 0 < lim ∧ lim ≤ ((i + 1 : Nat) : Int) then (insertOrIgnore cur e, false)
      else loadIndexLoop (if (i + 1) % 10000 = 0 then insertOrIgnore cur e else c)
        (insertOrIgnore cur e) (i + 1) lim rest := by
  simp only [loadIndexLoop]
  rw [if_neg (by omega)]
  simp only [hp]

theorem indexAttempts_cons_entry (i : Nat) (lim : Int) (line : List Char)
    (rest : List (List Char)) (e : Int × Int)
    (h : line.length < maxScanTokenSize) (hp : parseIndexLine line = some e) :
    indexAttempts i lim (line :: rest) =
      e :: (if 0 < lim ∧ lim ≤ ((i + 1 : Nat) : Int) then []
            else indexAttempts (i + 1) lim rest) := by
  simp only [indexAttempts]
  rw [if_neg (by omega)]
  simp only [hp]

theorem loadIndexLoop_snd_false (lines : List (List Char)) :
    ∀ (c cur : List (Int × Int)) (i : Nat) (lim : Int),
      (∀ l ∈ lines, l.length < maxScanTokenSize) →
      (loadIndexLoop c cur i lim lines).2 = false := by
  induction lines with
  | nil => intro c cur i lim _; rfl
  | cons line rest ih =>
    intro c cur i lim h
    have hline : line.length < maxScanTokenSize := h line (by simp)
    cases hp : parseIndexLine line with
    | none =>
      rw [loadIndexLoop_cons_skip c cur i lim line rest hline hp]
      exact ih c cur i lim fun l hl => h l (List.mem_cons_of_mem _ hl)
    | some e =>
      rw [loadIndexLoop_cons_entry c cur i lim line rest e hline hp]
      by_cases hb : 0 < lim ∧ lim ≤ ((i + 1 : Nat) : Int)
      · rw [if_pos hb]
      · rw [if_neg hb]
        exact ih _ _ _ _ fun l hl => h l (List.mem_cons_of_mem _ hl)

theorem mem_foldl_insertOrIgnore_left (ps : List (Int × Int)) :
    ∀ (c : List (Int × Int)) (x : Int × Int), x ∈ c →
      x ∈ ps.foldl insertOrIgnore c := by
  induction ps with
  | nil => intro c x hx; exact hx
  | cons p ps ih =>
    intro c x hx
    refine ih (insertOrIgnore c p) x ?_
    rw [insertOrIgnore]
    by_cases hp : p ∈ c
    · rw [if_pos hp]; exact hx
    · rw [if_neg hp]; exact List.mem_append_left _ hx

theorem mem_foldl_insertOrIgnore_right (ps : List (Int × Int)) :
    ∀ (c : List (Int × Int)) (x : Int × Int), x ∈ ps →
      x ∈ ps.foldl insertOrIgnore c := by
  induction ps with
  | nil => intro c x hx; cases hx
  | cons p ps ih =>
    intro c x hx
    rcases List.mem_cons.mp hx with hx | hx
    · subst hx
      refine mem_foldl_insertOrIgnore_left ps _ x ?_
      rw [insertOrIgnore]
      by_cases hp : x ∈ c
      · rw [if_pos hp]; exact hp
      · rw [if_neg hp]; exact List.mem_append_right _ (by simp)
    · exact ih _ x hx

theorem foldl_insertOrIgnore_absorb (ps : List (Int × Int)) :
    ∀ (c : List (Int × Int)), (∀ x ∈ ps, x ∈ c) →
      ps.foldl insertOrIgnore c = c := by
  induction ps with
  | nil => intro c _; rfl
  | cons p ps ih =>
    intro c h
    have hp : p ∈ c := h p (by simp)
    have hins : insertOrIgnore c p = c := by rw [insertOrIgnore, if_pos hp]
    rw [List.foldl_cons, hins]
    exact ih c fun x hx => h x (List.mem_cons_of_mem _ hx)

theorem nodup_foldl_insertOrIgnore (ps : List (Int × Int)) :
    ∀ (c : List (Int × Int)), c.Nodup → (ps.foldl insertOrIgnore c).Nodup := by
  induction ps with
  | nil => intro c hc; exact hc
  | cons p ps ih =>
    intro c hc
    refine ih _ ?_
    rw [insertOrIgnore]
    by_cases hp : p ∈ c
    · rw [if_pos hp]; exact hc
    · rw [if_neg hp]
      exact List.Nodup.append hc (List.nodup_singleton p) (by
        intro a ha hb
        simp at hb
        subst hb
        exact hp ha)

theorem loadIndexLoop_fst_eq (lines : List (List Char)) :
    ∀ (c cur : List (Int × Int)) (i : Nat) (lim : Int),
      (loadIndexLoop c cur i lim lines).2 = false →
      (loadIndexLoop c cur i lim lines).1
        = (indexAttempts i lim lines).foldl insertOrIgnore cur := by
  induction lines with
  | nil => intro c cur i lim _; rfl
  | cons line rest ih =>
    intro c cur i lim hf
    by_cases hl : maxScanTokenSize ≤ line.length
    · rw [loadIndexLoop_cons_too_long c cur i lim line rest hl] at hf
      cases hf
    · have hl2 : line.length < maxScanTokenSize := by omega
      cases hp : parseIndexLine line with
      | none =>
        rw [loadIndexLoop_cons_skip c cur i lim line rest hl2 hp] at hf ⊢
        rw [ih c cur i lim hf]
        congr 1
        simp only [indexAttempts]
        rw [if_neg (by omega)]
        simp only [hp]
      | some e =>
        rw [loadIndexLoop_cons_entry c cur i lim line rest e hl2 hp] at hf ⊢
        rw [indexAttempts_cons_entry i lim line rest e hl2 hp]
        by_cases hb : 0 < lim ∧ lim ≤ ((i + 1 : Nat) : Int)
        · rw [if_pos hb] at hf ⊢
          rw [if_pos hb]
          rfl
        · rw [if_neg hb] at hf ⊢
          rw [if_neg hb, List.foldl_cons]
          exact ih _ _ _ _ hf

theorem loadIndexLoop_snd_indep (lines : List (List Char)) :
    ∀ (c1 cur1 c2 cur2 : List (Int × Int)) (i : Nat) (lim : Int),
      (loadIndexLoop c1 cur1 i lim lines).2 = (loadIndexLoop c2 cur2 i lim lines).2 := by
  induction lines with
  | nil => intro c1 cur1 c2 cur2 i lim; rfl
  | cons line rest ih =>
    intro c1 cur1 c2 cur2 i lim
    by_cases hl : maxScanTokenSize ≤ line.length
    · rw [loadIndexLoop_cons_too_long c1 cur1 i lim line rest hl,
        loadIndexLoop_cons_too_long c2 cur2 i lim line rest hl]
    · have hl2 : line.length < maxScanTokenSize := by omega
      cases hp : parseIndexLine line with
      | none =>
        rw [loadIndexLoop_cons_skip c1 cur1 i lim line rest hl2 hp,
          loadIndexLoop_cons_skip c2 cur2 i lim line rest hl2 hp]
        exact ih _ _ _ _ _ _
      | some e =>
        rw [loadIndexLoop_cons_entry c1 cur1 i lim line rest e hl2 hp,
          loadIndexLoop_cons_entry c2 cur2 i lim line rest e hl2 hp]
        by_cases hb : 0 < lim ∧ lim ≤ ((i + 1 : Nat) : Int)
        · rw [if_pos hb, if_pos hb]
        · rw [if_neg hb, if_neg hb]
          exact ih _ _ _ _ _ _

/-! ## C3: scanner buffer behaviour in LoadIndex -/

/-- C3 counterexample: a line of exactly 16 KiB does not parse and is fatal.
The scanner hits its buffer bound, `LoadIndex` returns the scanner error
(flag `true`), and the following well-formed line `100:5:Title` — which
parses on its own — is never processed: the table stays empty. -/
theorem c3_long_line_fatal :
    c3LongLine.length = maxScanTokenSize ∧
    loadIndex [] [c3LongLine, c3GoodLine] 0 = ([], true) ∧
    parseIndexLine c3GoodLine = some (100, 5) := by
  refine ⟨by simp [c3LongLine], ?_, by decide⟩
  have hc : maxScanTokenSize ≤ c3LongLine.length := by simp [c3LongLine]
  rw [loadIndex]
  exact loadIndexLoop_cons_too_long _ _ _ _ _ _ hc

/-- C3 (amended): lines shorter than the 16 KiB scanner buffer always get
through the scanner, and in their presence `LoadIndex` never reports a
scanner error; a malformed short line (fewer than two colons or unparseable
numeric fields) is skipped without affecting the rest of the load. A line of
16 KiB or more, however, aborts the whole load with an error (see
`c3_long_line_fatal`), rather than being skipped. -/
theorem c3_short_lines_parse :
    (∀ (t : List (Int × Int)) (lim : Int) (lines : List (List Char)),
      (∀ l ∈ lines, l.length < maxScanTokenSize) →
      (loadIndex t lines lim).2 = false) ∧
    (∀ (t : List (Int × Int)) (lim : Int) (mal : List Char) (rest : List (List Char)),
      mal.length < maxScanTokenSize → parseIndexLine mal = Option.none →
      loadIndex t (mal :: rest) lim = loadIndex t rest lim) := by
  constructor
  · intro t lim lines h
    rw [loadIndex]
    exact loadIndexLoop_snd_false lines t t 0 lim h
  · intro t lim mal rest hlen hp
    rw [loadIndex, loadIndex]
    exact loadIndexLoop_cons_skip t t 0 lim mal rest hlen hp

/-- Witness for `c3_short_lines_parse` at concrete lines. -/
theorem c3_short_lines_parse_witness :
    (loadIndex [] [c3GoodLine] 0).2 = false ∧
    loadIndex [] ["ab".toList, c3GoodLine] 0 = loadIndex [] [c3GoodLine] 0 :=
  ⟨c3_short_lines_parse.1 [] 0 [c3GoodLine] (by decide),
   c3_short_lines_parse.2 [] 0 "ab".toList [c3GoodLine] (by decide) (by decide)⟩

/-! ## C9: LoadIndex idempotence -/

/-- C9: duplicate `(seek, article_id)` pairs are silently dropped by
`INSERT OR IGNORE`, and rerunning `LoadIndex` on the same input from the
state the first successful run produced leaves `index_entries` identical
(and duplicate-free when the starting table was). -/
theorem c9_loadIndex_idempotent :
    (∀ (t : List (Int × Int)) (e : Int × Int), e ∈ t → insertOrIgnore t e = t) ∧
    (∀ (t : List (Int × Int)) (lines : List (List Char)) (lim : Int)
      (t' : List (Int × Int)),
      loadIndex t lines lim = (t', false) →
      loadIndex t' lines lim = (t', false) ∧ (t.Nodup → t'.Nodup)) := by
  constructor
  · intro t e he
    rw [insertOrIgnore, if_pos he]
  · intro t lines lim t' h
    have hsnd : (loadIndexLoop t t 0 lim lines).2 = false := by
      rw [loadIndex] at h
      rw [h]
    have hfst : t' = (indexAttempts 0 lim lines).foldl insertOrIgnore t := by
      have h2 := loadIndexLoop_fst_eq lines t t 0 lim hsnd
      rw [loadIndex] at h
      rw [h] at h2
      exact h2
    have hsub : ∀ x ∈ indexAttempts 0 lim lines, x ∈ t' := by
      intro x hx
      rw [hfst]
      exact mem_foldl_insertOrIgnore_right _ _ _ hx
    constructor
    · have hsnd2 : (loadIndexLoop t' t' 0 lim lines).2 = false := by
        rw [loadIndexLoop_snd_indep lines t' t' t t 0 lim]
        exact hsnd
      have hfst2 := loadIndexLoop_fst_eq lines t' t' 0 lim hsnd2
      rw [foldl_insertOrIgnore_absorb _ _ hsub] at hfst2
      rw [loadIndex]
      exact Prod.ext hfst2 hsnd2
    · intro hnd
      rw [hfst]
      exact nodup_foldl_insertOrIgnore _ _ hnd

/-- Witness for `c9_loadIndex_idempotent`: loading two lines that carry the
same `(seek, article_id)` pair yields the one-row table `[(5, 7)]`, and
rerunning from that state is a no-op. -/
theorem c9_loadIndex_idempotent_witness :
    loadIndex [(5, 7)] ["5:7:A".toList, "5:7:B".toList] 0 = ([(5, 7)], false) :=
  (c9_loadIndex_idempotent.2 [] ["5:7:A".toList, "5:7:B".toList] 0 [(5, 7)]
    (by decide)).1

/-! ## ProcessArticles lemmas -/

theorem mem_upsertArticle (tbl : List Article) (b a : Article)
    (h : a ∈ upsertArticle tbl b) : a ∈ tbl ∨ a = b := by
  rw [upsertArticle] at h
  by_cases hany : tbl.any fun x => x.id = b.id
  · rw [if_pos hany] at h
    rcases List.mem_map.mp h with ⟨x, hx, hxa⟩
    by_cases hid : x.id = b.id
    · rw [if_pos hid] at hxa
      right
      exact hxa.symm
    · rw [if_neg hid] at hxa
      left
      rw [hxa] at hx
      exact hx
  · rw [if_neg hany] at h
    rcases List.mem_append.mp h with h | h
    · left; exact h
    · right; simpa using h

theorem upsertArticle_id_preserved (tbl : List Article) (b : Article) (n : Int)
    (h : ∃ x ∈ tbl, x.id = n) : ∃ x ∈ upsertArticle tbl b, x.id = n := by
  rcases h with ⟨x, hx, hxn⟩
  rw [upsertArticle]
  by_cases hany : tbl.any fun y => y.id = b.id
  · rw [if_pos hany]
    by_cases hid : x.id = b.id
    · refine ⟨b, List.mem_map.mpr ⟨x, hx, by rw [if_pos hid]⟩, ?_⟩
      rw [← hid, hxn]
    · exact ⟨x, List.mem_map.mpr ⟨x, hx, by rw [if_neg hid]⟩, hxn⟩
  · rw [if_neg hany]
    exact ⟨x, List.mem_append_left _ hx, hxn⟩

theorem upsertArticle_mem_id (tbl : List Article) (b : Article) :
    ∃ x ∈ upsertArticle tbl b, x.id = b.id := by
  rw [upsertArticle]
  by_cases hany : tbl.any fun y => y.id = b.id
  · rw [if_pos hany]
    rcases List.any_eq_true.mp hany with ⟨x, hx, hid⟩
    have hid2 : x.id = b.id := of_decide_eq_true hid
    exact ⟨b, List.mem_map.mpr ⟨x, hx, by rw [if_pos hid2]⟩, rfl⟩
  · rw [if_neg hany]
    exact ⟨b, List.mem_append_right _ (by simp), rfl⟩

theorem processArticlesLoop_mem (ids : List Int) (pages : List Page) :
    ∀ (tbl : List Article) (pr : Nat) (a : Article),
      a ∈ processArticlesLoop ids tbl pr 0 pages →
      a ∈ tbl ∨ ∃ p ∈ pages, p.ns = 0 ∧ p.id ∈ ids ∧ a = pageToArticle p := by
  induction pages with
  | nil =>
    intro tbl pr a ha
    left
    exact ha
  | cons p rest ih =>
    intro tbl pr a ha
    simp only [processArticlesLoop] at ha
    by_cases hns : p.ns ≠ 0
    · rw [if_pos hns] at ha
      rcases ih tbl pr a ha with h | ⟨q, hq, hqs⟩
      · left; exact h
      · right; exact ⟨q, List.mem_cons_of_mem _ hq, hqs⟩
    · rw [if_neg hns] at ha
      by_cases hid : p.id ∉ ids
      · rw [if_pos hid] at ha
        rcases ih tbl pr a ha with h | ⟨q, hq, hqs⟩
        · left; exact h
        · right; exact ⟨q, List.mem_cons_of_mem _ hq, hqs⟩
      · rw [if_neg hid] at ha
        rw [if_neg (by simp)] at ha
        rcases ih _ _ a ha with h | ⟨q, hq, hqs⟩
        · rcases mem_upsertArticle tbl (pageToArticle p) a h with h2 | h2
          · left; exact h2
          · right
            exact ⟨p, List.mem_cons_self _ _,
              not_not.mp hns, not_not.mp hid, h2⟩
        · right; exact ⟨q, List.mem_cons_of_mem _ hq, hqs⟩

theorem processArticlesLoop_id_preserved (ids : List Int) (pages : List Page) :
    ∀ (tbl : List Article) (pr : Nat) (n : Int),
      (∃ x ∈ tbl, x.id = n) →
      ∃ x ∈ processArticlesLoop ids tbl pr 0 pages, x.id = n := by
  induction pages with
  | nil => intro tbl pr n h; exact h
  | cons p rest ih =>
    intro tbl pr n h
    simp only [processArticlesLoop]
    by_cases hns : p.ns ≠ 0
    · rw [if_pos hns]
      exact ih tbl pr n h
    · rw [if_neg hns]
      by_cases hid : p.id ∉ ids
      · rw [if_pos hid]
        exact ih tbl pr n h
      · rw [if_neg hid, if_neg (by simp)]
        exact ih _ _ n (upsertArticle_id_preserved tbl (pageToArticle p) n h)

theorem processArticlesLoop_keeps (ids : List Int) (pages : List Page) :
    ∀ (tbl : List Article) (pr : Nat) (q : Page),
      q ∈ pages → q.ns = 0 → q.id ∈ ids →
      ∃ a ∈ processArticlesLoop ids tbl pr 0 pages, a.id = q.id := by
  induction pages with
  | nil => intro tbl pr q hq; cases hq
  | cons p rest ih =>
    intro tbl pr q hq hns hid
    rcases List.mem_cons.mp hq with hq | hq
    · subst hq
      simp only [processArticlesLoop]
      rw [if_neg (by simp [hns]), if_neg (by simp [hid]), if_neg (by simp)]
      have hmem : ∃ x ∈ upsertArticle tbl (pageToArticle q), x.id = q.id :=
        upsertArticle_mem_id tbl (pageToArticle q)
      exact processArticlesLoop_id_preserved ids rest _ _ q.id hmem
    · simp only [processArticlesLoop]
      by_cases hns2 : p.ns ≠ 0
      · rw [if_pos hns2]
        exact ih tbl pr q hq hns hid
      · rw [if_neg hns2]
        by_cases hid2 : p.id ∉ ids
        · rw [if_pos hid2]
          exact ih tbl pr q hq hns hid
        · rw [if_neg hid2, if_neg (by simp)]
          exact ih _ _ q hq hns hid

/-! ## C7: namespace and index filtering in ProcessArticles -/

/-- C7: with no processing limit, every stored article row comes from a page
with namespace 0 whose id is in the materialized index-id set — with
`redirect` equal to the first redirect target title or the empty string —
and conversely every such page leaves a row with its id. In the spec's
scenario, the namespace-1 page `Talk:Anarchism` (id 13, in the index) is not
stored and `GetArticle` on its title reports not-found. -/
theorem c7_processArticles_filter :
    (∀ (ids : List Int) (pages : List Page) (a : Article),
      a ∈ processArticles ids pages 0 →
      ∃ p ∈ pages, p.ns = 0 ∧ p.id ∈ ids ∧ a = pageToArticle p ∧
        a.redirect = (match p.redirect with | [] => "" | t :: _ => t)) ∧
    (∀ (ids : List Int) (pages : List Page) (p : Page),
      p ∈ pages → p.ns = 0 → p.id ∈ ids →
      ∃ a ∈ processArticles ids pages 0, a.id = p.id) ∧
    getArticle (processArticles [12, 13] [anarchismPage, talkPage] 0) "Talk:Anarchism"
      = Option.none := by
  refine ⟨?_, ?_, by decide⟩
  · intro ids pages a ha
    rcases processArticlesLoop_mem ids pages [] 0 a ha with h | ⟨p, hp, hns, hid, heq⟩
    · cases h
    · exact ⟨p, hp, hns, hid, heq, by rw [heq]; rfl⟩
  · intro ids pages p hp hns hid
    exact processArticlesLoop_keeps ids pages [] 0 p hp hns hid

/-- Witness for `c7_processArticles_filter`: a kept main-namespace page
leaves a row with its id. -/
theorem c7_processArticles_filter_witness :
    ∃ a ∈ processArticles [12] [anarchismPage] 0, a.id = anarchismPage.id :=
  c7_processArticles_filter.2.1 [12] [anarchismPage] anarchismPage
    (by decide) (by decide) (by decide)

/-! ## C8: GetArticle lookup order -/

/-- C8: `GetArticle` returns the exact-title match when one exists;
otherwise it retries case-insensitively with the title-cased lower-cased
input, and returns not-found only when both lookups miss. Consequently
`GetArticle "anarchism"` on a store holding only `"Anarchism"` finds the
`"Anarchism"` article through the retry. -/
theorem c8_getArticle_lookup :
    (∀ (tbl : List Article) (t : String) (a : Article),
      findExact tbl t = some a → getArticle tbl t = some a) ∧
    (∀ (tbl : List Article) (t : String),
      findExact tbl t = Option.none →
      getArticle tbl t = findCI tbl (goTitleCase (asciiLower t))) ∧
    (∀ (tbl : List Article) (t : String),
      findExact tbl t = Option.none →
      findCI tbl (goTitleCase (asciiLower t)) = Option.none →
      getArticle tbl t = Option.none) ∧
    getArticle [anarchismArticle] "anarchism" = some anarchismArticle := by
  refine ⟨?_, ?_, ?_, by decide⟩
  · intro tbl t a h
    rw [getArticle, h]
  · intro tbl t h
    rw [getArticle, h]
  · intro tbl t h1 h2
    rw [getArticle, h1, h2]

/-- Witness for `c8_getArticle_lookup`: the exact match wins. -/
theorem c8_getArticle_lookup_witness :
    getArticle [anarchismArticle] "Anarchism" = some anarchismArticle :=
  c8_getArticle_lookup.1 [anarchismArticle] "Anarchism" anarchismArticle (by decide)

/-! ## Search lemmas -/

theorem dedupByTitleAux_sublist (l : List FtsRow) :
    ∀ seen, List.Sublist (dedupByTitleAux seen l) l := by
  induction l with
  | nil => intro seen; simp [dedupByTitleAux]
  | cons r rs ih =>
    intro seen
    simp only [dedupByTitleAux]
    by_cases h : r.title ∈ seen
    · rw [if_pos h]
      exact (ih seen).cons r
    · rw [if_neg h]
      exact (ih _).cons₂ r

theorem dedupByTitleAux_titles_fresh (l : List FtsRow) :
    ∀ seen x, x ∈ dedupByTitleAux seen l → x.title ∉ seen := by
  induction l with
  | nil => intro seen x hx; cases hx
  | cons r rs ih =>
    intro seen x hx
    simp only [dedupByTitleAux] at hx
    by_cases h : r.title ∈ seen
    · rw [if_pos h] at hx
      exact ih seen x hx
    · rw [if_neg h] at hx
      rcases List.mem_cons.mp hx with hx | hx
      · subst hx; exact h
      · intro hmem
        exact ih _ x hx (List.mem_cons_of_mem _ hmem)

theorem dedupByTitleAux_titles_nodup (l : List FtsRow) :
    ∀ seen, ((dedupByTitleAux seen l).map fun r => r.title).Nodup := by
  induction l with
  | nil => intro seen; simp [dedupByTitleAux]
  | cons r rs ih =>
    intro seen
    simp only [dedupByTitleAux]
    by_cases h : r.title ∈ seen
    · rw [if_pos h]
      exact ih seen
    · rw [if_neg h, List.map_cons]
      refine List.nodup_cons.mpr ⟨?_, ih _⟩
      intro hmem
      rcases List.mem_map.mp hmem with ⟨x, hx, hxt⟩
      exact dedupByTitleAux_titles_fresh rs _ x hx
        (by rw [hxt]; exact List.mem_cons_self _ _)

theorem containsSub_nil (hay : List Char) : containsSub [] hay = true := by
  cases hay <;> simp [containsSub, startsWithChars, List.isEmpty]

theorem likeMatch_empty (t : String) : likeMatch "" t = true := by
  rw [likeMatch]
  exact containsSub_nil _

theorem searchFts_fts5_ok (mtch : FtsRow → Bool) (rank : FtsRow → Int)
    (rows : List FtsRow) (lim : Int) (ts : List String)
    (h : searchFts "fts5" mtch rank rows lim = Except.ok ts) :
    ts = ((dedupByTitle ((rows.filter mtch).insertionSort
        fun a b => rank a ≤ rank b)).map fun r => r.title).take lim.toNat := by
  rw [searchFts, if_pos rfl] at h
  exact (Except.ok.injEq _ _ |>.mp h).symm

theorem likeSearch_length (arts : List Article) (q : String) (lim : Int) :
    (likeSearch arts q lim).length ≤ lim.toNat := by
  rw [likeSearch]
  exact List.length_take_le _ _

theorem searchTitles_length (db : SearchDb) (m : String → FtsRow → Bool)
    (r : String → FtsRow → Int) (v q : String) (lim : Int) (ts : List String)
    (h : (searchTitles db m r v q lim).1 = Except.ok ts) :
    ts.length ≤ (normLimit lim).toNat := by
  rw [searchTitles] at h
  by_cases hv : v = "fts5" ∨ v = "fts4"
  · rw [if_pos hv] at h
    cases hf : searchFts v (m (escapeFts q ++ "*")) (r (escapeFts q ++ "*"))
        db.ftsRows (normLimit lim) with
    | ok titles =>
      rw [hf] at h
      have hts : titles = ts := by simpa using h
      by_cases hv5 : v = "fts5"
      · subst hv5
        have h5 := searchFts_fts5_ok _ _ _ _ _ hf
        rw [← hts, h5]
        exact List.length_take_le _ _
      · rw [searchFts, if_neg hv5] at hf
        cases hf
    | error e =>
      rw [hf] at h
      have hlk : likeSearch db.articles q (normLimit lim) = ts := by simpa using h
      rw [← hlk]
      exact likeSearch_length _ _ _
  · rw [if_neg hv] at h
    have hlk : likeSearch db.articles q (normLimit lim) = ts := by simpa using h
    rw [← hlk]
    exact likeSearch_length _ _ _

/-! ## C2: ranking by FTS generation -/

/-- C2 counterexample: in generation-4 mode the FTS query never succeeds and
never produces a relevance-ordered result: `ORDER BY rank` does not exist
under generation 4, so the prepared statement fails and `SearchTitles` falls
back to the LIKE path, returning the lexicographically ordered titles and
demoting the mode. -/
theorem c2_fts4_rank_error :
    searchFts "fts4" (fun _ => true) (fun _ => (0 : Int)) exampleDb.ftsRows 5
      = Except.error "no such column: rank" ∧
    searchTitles exampleDb (fun _ _ => true) (fun _ _ => 0) "fts4" "Anarch" 5
      = (Except.ok ["Anarchism"], "none") := ⟨rfl, rfl⟩

/-- C2 (amended): in generation-5 mode a successful `search_fts` returns the
titles of a rank-sorted selection of matching rows, with duplicates
collapsed and at most `limit` entries. In generation-4 mode the query always
fails — generation 4 has no `rank` column — and the call is answered by the
LIKE fallback with the mode demoted to `"none"`. -/
theorem c2_search_ranking :
    (∀ (mtch : FtsRow → Bool) (rank : FtsRow → Int) (rows : List FtsRow)
        (lim : Int) (ts : List String),
      searchFts "fts5" mtch rank rows lim = Except.ok ts →
      ∃ picked : List FtsRow,
        ts = picked.map (fun r => r.title) ∧
        picked.Pairwise (fun a b => rank a ≤ rank b) ∧
        (∀ x ∈ picked, x ∈ rows ∧ mtch x = true) ∧
        ts.Nodup ∧ ts.length ≤ lim.toNat) ∧
    (∀ (mtch : FtsRow → Bool) (rank : FtsRow → Int) (rows : List FtsRow) (lim : Int),
      searchFts "fts4" mtch rank rows lim = Except.error "no such column: rank") ∧
    (∀ (db : SearchDb) (m : String → FtsRow → Bool) (r : String → FtsRow → Int)
        (q : String) (lim : Int),
      searchTitles db m r "fts4" q lim
        = (Except.ok (likeSearch db.articles q (normLimit lim)), "none")) := by
  refine ⟨?_, ?_, ?_⟩
  · intro mtch rank rows lim ts h
    have hts := searchFts_fts5_ok mtch rank rows lim ts h
    haveI htot : IsTotal FtsRow fun a b => rank a ≤ rank b :=
      ⟨fun a b => le_total _ _⟩
    haveI htrans : IsTrans FtsRow fun a b => rank a ≤ rank b :=
      ⟨fun a b c hab hbc => le_trans hab hbc⟩
    have hsorted : List.Sorted (fun a b => rank a ≤ rank b)
        ((rows.filter mtch).insertionSort fun a b => rank a ≤ rank b) :=
      List.sorted_insertionSort _ _
    have hsub : List.Sublist
        ((dedupByTitle ((rows.filter mtch).insertionSort
          fun a b => rank a ≤ rank b)).take lim.toNat)
        ((rows.filter mtch).insertionSort fun a b => rank a ≤ rank b) :=
      (List.take_sublist _ _).trans (dedupByTitleAux_sublist _ [])
    refine ⟨(dedupByTitle ((rows.filter mtch).insertionSort
        fun a b => rank a ≤ rank b)).take lim.toNat, ?_, ?_, ?_, ?_, ?_⟩
    · rw [hts, List.map_take]
    · exact List.Pairwise.sublist hsub hsorted
    · intro x hx
      have hxS := hsub.subset hx
      have hxf := (List.perm_insertionSort
        (fun a b => rank a ≤ rank b) (rows.filter mtch)).subset hxS
      exact ⟨(List.mem_filter.mp hxf).1, (List.mem_filter.mp hxf).2⟩
    · rw [hts]
      exact List.Nodup.sublist (List.take_sublist _ _)
        (dedupByTitleAux_titles_nodup _ [])
    · rw [hts]
      exact List.length_take_le _ _
  · intro mtch rank rows lim
    rw [searchFts, if_neg (by decide)]
  · intro db m r q lim
    rw [searchTitles, if_pos (Or.inr rfl)]
    rw [searchFts, if_neg (by decide)]

/-- Witness for `c2_search_ranking` on a one-row FTS table ranked by rowid. -/
theorem c2_search_ranking_witness :
    ∃ picked : List FtsRow,
      ["Anarchism"] = picked.map (fun r => r.title) ∧
      picked.Pairwise (fun a b => a.rowid ≤ b.rowid) ∧
      (∀ x ∈ picked, x ∈ exampleDb.ftsRows ∧ (fun _ : FtsRow => true) x = true) ∧
      (["Anarchism"] : List String).Nodup ∧
      (["Anarchism"] : List String).length ≤ (5 : Int).toNat :=
  c2_search_ranking.1 (fun _ => true) (fun r => r.rowid) exampleDb.ftsRows 5
    ["Anarchism"] rfl

/-! ## C4: empty query -/

/-- C4 counterexample: the empty query does not return an empty result on
every store. In LIKE mode the pattern becomes `'%%'`, which matches every
title: on a store holding "Anarchism", `SearchTitles "" 5` returns
`["Anarchism"]`, not `[]`. -/
theorem c4_empty_query_nonempty :
    (searchTitles exampleDb (fun _ _ => true) (fun _ _ => 0) "none" "" 5).1
      = Except.ok ["Anarchism"] ∧
    Except.ok ["Anarchism"]
      ≠ (Except.ok ([] : List String) : Except String (List String)) :=
  ⟨rfl, by simp⟩

/-- C4 (amended): with the empty query the LIKE pattern `'%%'` matches every
row, so `SearchTitles` in mode `"none"` returns the first `limit` stored
titles in sorted order with duplicates collapsed; the result is empty
exactly on an empty store (the spec's empty-store scenario). -/
theorem c4_empty_query_like :
    (∀ (db : SearchDb) (m : String → FtsRow → Bool) (r : String → FtsRow → Int)
        (lim : Int),
      searchTitles db m r "none" "" lim
        = (Except.ok (((dedupFirst (db.articles.map fun a => a.title)).insertionSort
            fun s t => s ≤ t).take (normLimit lim).toNat), "none")) ∧
    (∀ (m : String → FtsRow → Bool) (r : String → FtsRow → Int) (lim : Int),
      (searchTitles { articles := [], ftsRows := [] } m r "none" "" lim).1
        = Except.ok []) := by
  have hfilter : ∀ arts : List Article,
      (arts.filter fun a => likeMatch "" a.title) = arts := fun arts =>
    List.filter_eq_self.mpr fun a _ => likeMatch_empty _
  constructor
  · intro db m r lim
    rw [searchTitles, if_neg (by decide), likeSearch, hfilter]
  · intro m r lim
    rw [searchTitles, if_neg (by decide), likeSearch]
    simp [dedupFirst, dedupFirstAux]

/-! ## C5: demotion on FTS failure -/

/-- C5: when the FTS query fails at query time, `SearchTitles` demotes the
mode to `"none"` and answers the same call through the LIKE path; and every
call made in mode `"none"` keeps using the LIKE path with the mode left at
`"none"`, so the demotion is sticky for the process. -/
theorem c5_fts_error_fallback :
    (∀ (db : SearchDb) (m : String → FtsRow → Bool) (r : String → FtsRow → Int)
        (v q : String) (lim : Int) (e : String),
      (v = "fts5" ∨ v = "fts4") →
      searchFts v (m (escapeFts q ++ "*")) (r (escapeFts q ++ "*")) db.ftsRows
          (normLimit lim) = Except.error e →
      searchTitles db m r v q lim
        = (Except.ok (likeSearch db.articles q (normLimit lim)), "none")) ∧
    (∀ (db : SearchDb) (m : String → FtsRow → Bool) (r : String → FtsRow → Int)
        (q : String) (lim : Int),
      searchTitles db m r "none" q lim
        = (Except.ok (likeSearch db.articles q (normLimit lim)), "none")) := by
  constructor
  · intro db m r v q lim e hv hf
    rw [searchTitles, if_pos hv, hf]
  · intro db m r q lim
    rw [searchTitles, if_neg (by decide)]

/-- Witness for `c5_fts_error_fallback`: a generation-4 query fails and the
call is answered by LIKE with the mode demoted. -/
theorem c5_fts_error_fallback_witness :
    searchTitles exampleDb (fun _ _ => true) (fun _ _ => 0) "fts4" "Anarch" 5
      = (Except.ok (likeSearch exampleDb.articles "Anarch" (normLimit 5)), "none") :=
  c5_fts_error_fallback.1 exampleDb (fun _ _ => true) (fun _ _ => 0) "fts4"
    "Anarch" 5 "no such column: rank" (Or.inr rfl) rfl

/-! ## C6: result count versus limit -/

/-- C6 counterexample: `search_titles(Q, N).length ≤ N` fails for `N = 0`.
The limit is normalized to 20, so a one-article store returns one title. -/
theorem c6_limit_not_bounding :
    (searchTitles exampleDb (fun _ _ => true) (fun _ _ => 0) "none" "" 0).1
      = Except.ok ["Anarchism"] ∧
    ¬ ((["Anarchism"] : List String).length ≤ 0) :=
  ⟨rfl, by decide⟩

/-- C6 (amended): the result of `SearchTitles` has at most
`normLimit N = if N ≤ 0 then 20 else N` entries: at most `N` when `N > 0`,
and at most the substituted default 20 when `N ≤ 0`. -/
theorem c6_limit_normalized :
    ∀ (db : SearchDb) (m : String → FtsRow → Bool) (r : String → FtsRow → Int)
      (v q : String) (lim : Int) (ts : List String),
      (searchTitles db m r v q lim).1 = Except.ok ts →
      ts.length ≤ (normLimit lim).toNat ∧
      (0 < lim → (ts.length : Int) ≤ lim) ∧ (lim ≤ 0 → ts.length ≤ 20) := by
  intro db m r v q lim ts h
  have hlen := searchTitles_length db m r v q lim ts h
  refine ⟨hlen, fun hpos => ?_, fun hneg => ?_⟩
  · have hnl : normLimit lim = lim := by rw [normLimit, if_neg (by omega)]
    rw [hnl] at hlen
    omega
  · have hnl : normLimit lim = 20 := by rw [normLimit, if_pos hneg]
    rw [hnl] at hlen
    omega

/-- Witness for `c6_limit_normalized` at limit 0 on a one-article store. -/
theorem c6_limit_normalized_witness :
    (["Anarchism"] : List String).length ≤ (normLimit 0).toNat :=
  (c6_limit_normalized exampleDb (fun _ _ => true) (fun _ _ => 0) "none" ""
    0 ["Anarchism"] rfl).1

/-! ## C10: Open is idempotent after success -/

/-- C10: once `Open` has succeeded, the `initialized` flag is set, so every
later `Open` — even against a changed engine environment — returns success
immediately and leaves the state (connection, schema flags, detected FTS
version) unchanged: table creation and the capability probe never re-run. -/
theorem c10_open_idempotent :
    (∀ (env : SqlEnv) (w : WikiState), w.initialized = true →
      openWiki env w = (w, Option.none)) ∧
    (∀ (env : SqlEnv) (w w' : WikiState),
      openWiki env w = (w', Option.none) →
      ∀ env2 : SqlEnv, openWiki env2 w' = (w', Option.none)) := by
  have hinit : ∀ (env : SqlEnv) (w : WikiState), w.initialized = true →
      openWiki env w = (w, Option.none) := by
    intro env w h
    rw [openWiki, if_pos h]
  refine ⟨hinit, ?_⟩
  intro env w w' h env2
  rw [openWiki] at h
  by_cases h1 : w.initialized = true
  · rw [if_pos h1] at h
    have hw : w = w' := ((Prod.mk.injEq _ _ _ _).mp h).1
    rw [← hw]
    exact hinit env2 w h1
  · rw [if_neg h1] at h
    by_cases h2 : ¬ env.openOk = true
    · rw [if_pos h2] at h
      have hsnd := ((Prod.mk.injEq _ _ _ _).mp h).2
      simp at hsnd
    · rw [if_neg h2] at h
      have hw := ((Prod.mk.injEq _ _ _ _).mp h).1
      exact hinit env2 w' (by rw [← hw])

/-- Witness for `c10_open_idempotent`: after a first successful `Open`
against a generation-5-capable engine, a second `Open` is a no-op. -/
theorem c10_open_idempotent_witness :
    openWiki c10Env (⟨true, true, true, "fts5"⟩ : WikiState)
      = ((⟨true, true, true, "fts5"⟩ : WikiState), Option.none) :=
  c10_open_idempotent.2 c10Env c10Fresh _ rfl c10Env

end WikipediaSqlite
